import Mathlib

/-!
Shallow embedding of `src/light_monitor.py` (sensor sampling, per-minute
aggregation, hourly batch flush and output-file naming), together with
theorems settling the specification claims about that code.

Modelling conventions:
* Python floats are modelled as `ℚ`; machine floating point plays no role in
  the claims under study.
* Python values that can appear in a telemetry or aggregated record are
  modelled by `Value` (a number, a string, or a `datetime` object, the latter
  modelled by an abstract tick count `ℕ`).
* A Python function that can raise an exception to its caller returns
  `PyResult`; `PyResult.raised e` records the exception class name.
* The bytes returned by `serial_device.readline()` are modelled by the
  outcome of UTF-8-decoding them (`ArduinoRawData.decoded`): `none` means the
  bytes are not valid UTF-8, `some s` means they decode to the text `s`.
* Wall-clock time is modelled by a `ℕ` count of elapsed seconds.
-/

/-- A Python value stored in a record: a float (`num`), a string (`str`),
or a `datetime.datetime` object (`time`, an abstract tick count). -/
inductive Value where
  | num (q : ℚ)
  | str (s : String)
  | time (t : ℕ)
deriving DecidableEq, Repr

/-- Result of a Python call as seen by its caller: a returned value, or an
exception of the given class propagating out. -/
inductive PyResult (α : Type) where
  | ok (val : α)
  | raised (exc : String)
deriving DecidableEq, Repr

/-- A value read from the YAML configuration dictionary: Python `None`, an
integer, or a string (dates and names are strings for our purposes). -/
inductive PyVal where
  | none
  | int (n : ℤ)
  | str (s : String)
deriving DecidableEq, Repr

/-- Python `type(v) == type(1)`: is the configuration value an integer. -/
def PyVal.isInt : PyVal → Bool
  | .int _ => true
  | _ => false

/-- Python `str(v)` for a configuration value. -/
def pyStr : PyVal → String
  | .none => "None"
  | .int n => toString n
  | .str s => s

/-- Python `config_data.get(key, dflt)`: dictionary lookup with a default. -/
def cfgGet (config : List (String × PyVal)) (key : String) (dflt : PyVal) : PyVal :=
  (List.lookup key config).getD dflt

/-- The bytes of one raw serial line, represented by their UTF-8 decoding
outcome: `none` when `str(bytes, 'utf-8')` would raise `UnicodeDecodeError`. -/
structure ArduinoRawData where
  decoded : Option String
deriving DecidableEq, Repr

/-- Python `c.isdigit()`-style check used by float parsing. -/
def isDigitChar (c : Char) : Bool := c.isDigit

/-- Parse a non-empty run of decimal digits; `none` on a non-digit or on `[]`. -/
def parseDigitsAux : List Char → ℕ → Option ℕ
  | [], acc => some acc
  | c :: cs, acc =>
    if isDigitChar c then parseDigitsAux cs (acc * 10 + (c.toNat - 48))
    else Option.none

/-- Parse a digit string to a natural number, failing on `[]`. -/
def parseDigits (cs : List Char) : Option ℕ :=
  if cs = [] then Option.none else parseDigitsAux cs 0

/-- Unsigned part of the model of Python `float(s)`: digits with an optional
single decimal point.  `none` models a `ValueError`. -/
def parseFloatCore (cs : List Char) : Option ℚ :=
  let ip := cs.takeWhile (fun c => c != '.')
  match cs.dropWhile (fun c => c != '.') with
  | [] => (parseDigits ip).map (fun n => (n : ℚ))
  | _ :: frac =>
    if frac.any (fun c => c == '.') then Option.none
    else if ip = [] ∧ frac = [] then Option.none
    else
      match (if ip = [] then some 0 else parseDigits ip),
            (if frac = [] then some 0 else parseDigits frac) with
      | some n, some m => some ((n : ℚ) + (m : ℚ) / (10 : ℚ) ^ frac.length)
      | _, _ => Option.none

/-- Model of Python `float(s)` restricted to the decimal literals relevant
here: optional sign, digits, optional single decimal point. `none` models a
`ValueError` (non-numeric field, empty field). -/
def parseFloat (cs0 : List Char) : Option ℚ :=
  match cs0 with
  | '-' :: rest => (parseFloatCore rest).map (fun q => -q)
  | '+' :: rest => parseFloatCore rest
  | cs => parseFloatCore cs

/-- Characters removed by `data_packet.strip('\r\n')`. -/
def isLineBreak (c : Char) : Bool := c == '\r' || c == '\n'

/-- Python `s.strip('\r\n')`: drop leading and trailing CR/LF characters. -/
def stripCRLF (cs : List Char) : List Char :=
  ((cs.dropWhile isLineBreak).reverse.dropWhile isLineBreak).reverse

/-- Python `s.split(';')`: split on every semicolon, keeping empty parts
(`"".split(";") == [""]`). -/
def splitSemi : List Char → List (List Char)
  | [] => [[]]
  | c :: rest =>
    if c == ';' then [] :: splitSemi rest
    else
      match splitSemi rest with
      | [] => [[c]]
      | p :: ps => (c :: p) :: ps

/-- Function `parse_arduino_data` (src/light_monitor.py lines 74-91): decode the raw
bytes, strip CR/LF, split on `;`, and parse every field as a float.  The
`try` block catches the failure and returns `None` — but its handler prints
`raw_data`, which is unbound when the decode itself raised, so on a decode
failure the handler raises `NameError` to the caller. -/
def parse_arduino_data (d : ArduinoRawData) : PyResult (Option (List ℚ)) :=
  match d.decoded with
  | Option.none => .raised "NameError"
  | some raw_data =>
    match (splitSemi (stripCRLF raw_data.toList)).mapM parseFloat with
    | Option.none => .ok Option.none
    | some vals => .ok (some vals)

/-- Constant `CSV_FIELD_NAMES` (line 36).  The adjacent comment says the last column
must be `dateTime`, but the list as written puts `dateTime` first. -/
def CSV_FIELD_NAMES : List String := ["dateTime", "lights_on_time", "lights_off_time"]

/-- Function `get_arduino_data` (lines 125-152): read one line (a read error is caught
and yields `None`), parse it, reject the sample unless exactly
`len(CSV_FIELD_NAMES) - 1` values were parsed, append the locally captured
formatted timestamp, and zip `CSV_FIELD_NAMES` with the value list to build
the record (an association list standing for the Python dict). -/
def get_arduino_data (readline : PyResult ArduinoRawData) (formatted_time : String) :
    PyResult (Option (List (String × Value))) :=
  match readline with
  | .raised _ => .ok Option.none
  | .ok raw =>
    match parse_arduino_data raw with
    | .raised e => .raised e
    | .ok Option.none => .ok Option.none
    | .ok (some vals) =>
      if vals.length ≠ CSV_FIELD_NAMES.length - 1 then .ok Option.none
      else .ok (some (CSV_FIELD_NAMES.zip (vals.map Value.num ++ [Value.str formatted_time])))

/-- Extract the rational from a numeric cell. -/
def valueNum : Value → Option ℚ
  | .num q => some q
  | _ => Option.none

/-- Is a (possibly missing) cell a numeric value. -/
def isNumCell : Option Value → Bool
  | some (.num _) => true
  | _ => false

/-- Is a value a `datetime` object. -/
def isTimeVal : Value → Bool
  | .time _ => true
  | _ => false

/-- Turn the present cells of a column into their numbers, failing on the
first non-numeric cell (all-or-nothing, like the pandas aggregation). -/
def seriesVals : List Value → Option (List ℚ)
  | [] => some []
  | v :: vs =>
    match valueNum v with
    | Option.none => Option.none
    | some q => (seriesVals vs).map (fun qs => q :: qs)

/-- Model of `pd.DataFrame(records)[field]` followed by a numeric aggregation:
`none` models the exception raised inside the aggregation loop — a
`KeyError` when the field is missing from every record, or a type error when
a present cell is not numeric (pandas cannot take a median of such a
column).  Otherwise the list of present numeric cells, in record order
(missing cells are `NaN` and are skipped by min/max/median). -/
def seriesNums (records : List (List (String × Value))) (f : String) : Option (List ℚ) :=
  if records.all (fun r => (List.lookup f r).isNone) then Option.none
  else seriesVals (records.filterMap (fun r => List.lookup f r))

/-- The numeric cells of column `f`, in record order. -/
def numVals (records : List (List (String × Value))) (f : String) : List ℚ :=
  records.filterMap (fun r =>
    match List.lookup f r with
    | some (Value.num q) => some q
    | _ => Option.none)

/-- Model of `df[field].min()` on a non-empty numeric column (the `[]` case is
unreachable: callers guard against an empty column). -/
def qmin : List ℚ → ℚ
  | [] => 0
  | x :: xs => xs.foldl min x

/-- Model of `df[field].max()` on a non-empty numeric column. -/
def qmax : List ℚ → ℚ
  | [] => 0
  | x :: xs => xs.foldl max x

/-- Model of `df[field].median()`: sort ascending, take the middle element (odd
length) or the mean of the two middle elements (even length). -/
def qmedian (l : List ℚ) : ℚ :=
  let s := l.insertionSort (· ≤ ·)
  let n := l.length
  if n % 2 = 1 then s.getD (n / 2) 0
  else (s.getD (n / 2 - 1) 0 + s.getD (n / 2) 0) / 2

/-- Python `str(...)` applied to an aggregate. -/
def fmtQ (q : ℚ) : String := toString q

/-- The three entries `field_min`, `field_max`, `field_median` assigned for
one field (lines 109-111), in assignment order. -/
def mkAgg (f : String) (vals : List ℚ) : List (String × Value) :=
  [(f ++ "_min", Value.str (fmtQ (qmin vals))),
   (f ++ "_max", Value.str (fmtQ (qmax vals))),
   (f ++ "_median", Value.str (fmtQ (qmedian vals)))]

/-- The entries assigned by the `for field in CSV_FIELD_NAMES` loop of
`data_aggregation` before the first failing field: the whole loop sits in
one `try`, so an exception at some field aborts the loop and no later field
is aggregated. -/
def aggEntries : List String → List (List (String × Value)) → List (String × Value)
  | [], _ => []
  | f :: fs, records =>
    if f = "dateTime" then aggEntries fs records
    else
      match seriesNums records f with
      | Option.none => []
      | some vals => mkAgg f vals ++ aggEntries fs records

/-- Whether the aggregation loop of `data_aggregation` raised (and the
`except` branch ran). -/
def aggFailed : List String → List (List (String × Value)) → Bool
  | [], _ => false
  | f :: fs, records =>
    if f = "dateTime" then aggFailed fs records
    else
      match seriesNums records f with
      | Option.none => true
      | some _ => aggFailed fs records

/-- Function `data_aggregation` (lines 95-122): aggregate every non-`dateTime` schema
field (aborting at the first failure, which the `except` swallows), then
attach `datetime.datetime.now()` — modelled by the tick `now` — under
`dateTime`.  The function always returns; an aggregation failure never
propagates. -/
def data_aggregation (records : List (List (String × Value))) (now : ℕ) :
    List (String × Value) :=
  aggEntries CSV_FIELD_NAMES records ++ [("dateTime", Value.time now)]

/-- What the `except` branch of `data_aggregation` prints: the full input
batch (together with the error), or nothing when no field failed. -/
def data_aggregation_log (records : List (List (String × Value))) :
    Option (List (List (String × Value))) :=
  if aggFailed CSV_FIELD_NAMES records then some records else Option.none

/-- State of the inner one-minute sampling loop (lines 196-214): seconds
elapsed since `minute_loop_start_time`, the `data_from_last_minute` buffer,
and the index of the next read. -/
structure MinuteState where
  t : ℕ
  buf : List (List (String × Value))
  idx : ℕ
deriving DecidableEq, Repr

/-- Outcome of running the inner loop for some number of iterations: still
inside `while True`, or broken out with the final buffer. -/
inductive MinuteOutcome where
  | running (s : MinuteState)
  | done (buf : List (List (String × Value)))
deriving DecidableEq, Repr

/-- One iteration of the inner loop (lines 203-214).  `reads i` is the
outcome of the `i`-th `get_arduino_data` call (`none` = rejected sample) and
`dur i` the seconds that call consumed.  A rejected sample `continue`s —
skipping both the elapsed-time check and the sleep; a valid sample is
appended, then the loop breaks if ≥ 60 seconds have elapsed, else sleeps one
second.  The check at line 211 also reads `timedelta.seconds`, the seconds
component wrapping at 86400; the wrap is not modelled here, which is
faithful whenever the elapsed time at a check stays below one day — in the
program each read is bounded by the 1-second serial timeout, so the elapsed
time at the first check after a valid read stays far below the wrap. -/
def minuteStep (reads : ℕ → Option (List (String × Value))) (dur : ℕ → ℕ)
    (s : MinuteState) : MinuteOutcome :=
  let t1 := s.t + dur s.idx
  match reads s.idx with
  | Option.none => .running ⟨t1, s.buf, s.idx + 1⟩
  | some d =>
    if 60 ≤ t1 then .done (s.buf ++ [d])
    else .running ⟨t1 + 1, s.buf ++ [d], s.idx + 1⟩

/-- Run `n` iterations of the inner loop (or fewer if it breaks first). -/
def minuteRun (reads : ℕ → Option (List (String × Value))) (dur : ℕ → ℕ) :
    ℕ → MinuteState → MinuteOutcome
  | 0, s => .running s
  | n + 1, s =>
    match minuteRun reads dur n s with
    | .done b => .done b
    | .running s1 => minuteStep reads dur s1

/-- Constant `FILE_WRITE_DELAY_MINS` (line 38). -/
def FILE_WRITE_DELAY_MINS : ℕ := 3

/-- State of the hourly batch (lines 181-183): the `data_from_last_hour`
list and the `hour_loop_start_time` tick. -/
structure HourState where
  data_from_last_hour : List (List (String × Value))
  hour_loop_start_time : ℕ
deriving DecidableEq, Repr

/-- The per-cycle batch/flush step (lines 219-249): append the latest
aggregated record, then flush when
`(now - hour_loop_start_time).seconds / 60 >= FILE_WRITE_DELAY_MINS`
(true division, as in Python).  Python's `timedelta.seconds` is the seconds
COMPONENT of the delta, not its total: it wraps at 86400, so the gate tests
the elapsed seconds modulo one day (the delta is never negative here, since
the start tick is an earlier reading of the same clock).  On a flush the
batch content is written out (returned here), the batch is reset to `[]`
and the start time to `now`; otherwise nothing is written and the state
keeps accumulating. -/
def flushStep (s : HourState) (now : ℕ) (aggregated : List (String × Value)) :
    HourState × Option (List (List (String × Value))) :=
  let batch := s.data_from_last_hour ++ [aggregated]
  let minutes_since_start : ℚ := (((now - s.hour_loop_start_time) % 86400 : ℕ) : ℚ) / 60
  if (FILE_WRITE_DELAY_MINS : ℚ) ≤ minutes_since_start then
    (⟨[], now⟩, some batch)
  else
    (⟨batch, s.hour_loop_start_time⟩, Option.none)

/-- The output-file name chosen at flush time (lines 225-240).  `cage` and
`bird` stand for `str(config_data['cage_id'])` and `config_data['bird_name']`,
`ct` for the formatted write timestamp.  The four mode parameters are read
with `config_data.get(key, 0)`, so an absent key becomes the integer `0`,
not `None`.  When no branch fires, `file_name` is never assigned and the
subsequent use raises `NameError`: modelled by `none`. -/
def flush_file_name (config : List (String × PyVal)) (cage bird ct : String) :
    Option String :=
  let days_offset := cfgGet config "days_offset" (PyVal.int 0)
  let stable_date := cfgGet config "stable_date" (PyVal.int 0)
  let sunrise := cfgGet config "sunrise" (PyVal.int 0)
  let sunset := cfgGet config "sunset" (PyVal.int 0)
  if sunrise ≠ PyVal.none ∧ sunset ≠ PyVal.none then
    some ("cage_" ++ cage ++ "_" ++ bird ++ "_" ++ ct ++ "_manually_set.csv")
  else if stable_date ≠ PyVal.none then
    some ("cage_" ++ cage ++ "_" ++ bird ++ "_" ++ ct ++ "_stable_date_" ++
      pyStr stable_date ++ ".csv")
  else if days_offset.isInt = true then
    some ("cage_" ++ cage ++ "_" ++ bird ++ "_" ++ ct ++ "_Days_offset_" ++
      pyStr days_offset ++ ".csv")
  else Option.none

/-- The record `get_arduino_data` actually builds from the line `"50;300"`
with locally captured formatted timestamp `"TS"`. -/
def c1Record : List (String × Value) :=
  [("dateTime", Value.num 50), ("lights_on_time", Value.num 300),
   ("lights_off_time", Value.str "TS")]

/-- Claim C1.  The Sample Reader does NOT bind the timestamp name last: for
input line `"50;300"`, `CSV_FIELD_NAMES` starts with `dateTime`, so the zip
binds `dateTime` to `50.0`, `lights_on_time` to `300.0`, and the timestamp
string lands under `lights_off_time` — contradicting the claimed record
`{lights_on_time: 50.0, lights_off_time: 300.0, dateTime: <timestamp>}` and
the code's own comment that `dateTime` must be the last column. -/
theorem c1_sample_reader_misaligned_record :
    get_arduino_data (.ok ⟨some "50;300\r\n"⟩) "TS" = .ok (some c1Record)
    ∧ List.lookup "dateTime" c1Record = some (Value.num 50)
    ∧ List.lookup "dateTime" c1Record ≠ some (Value.str "TS")
    ∧ List.lookup "lights_on_time" c1Record = some (Value.num 300)
    ∧ List.lookup "lights_off_time" c1Record = some (Value.str "TS") := by
  refine ⟨by decide, by decide, by decide, by decide, by decide⟩

/-- Claim C3.  The Line Parser does not always return a value to its caller:
when the bytes fail to decode as UTF-8, the `except` handler's log line
references `raw_data`, which was never assigned, so a `NameError` escapes
`parse_arduino_data` instead of the absent result the claim promises. -/
theorem c3_decode_failure_raises_nameerror :
    parse_arduino_data ⟨Option.none⟩ = .raised "NameError"
    ∧ parse_arduino_data ⟨Option.none⟩ ≠ .ok Option.none := by
  refine ⟨rfl, by decide⟩

/-- Claim C8.  Whenever the parsed value sequence has length different from
`len(CSV_FIELD_NAMES) - 1`, `get_arduino_data` returns `None` — never a
malformed or partial record. -/
theorem c8_length_mismatch_rejected (raw : ArduinoRawData) (ft : String) (vals : List ℚ)
    (h1 : parse_arduino_data raw = .ok (some vals))
    (h2 : vals.length ≠ CSV_FIELD_NAMES.length - 1) :
    get_arduino_data (.ok raw) ft = .ok Option.none := by
  simp only [get_arduino_data, h1, if_pos h2]

/-- Witness for C8: the three-value line `"1;2;3"` parses to 3 ≠ 2 values and
is rejected. -/
theorem c8_witness :
    get_arduino_data (.ok ⟨some "1;2;3"⟩) "TS" = .ok Option.none :=
  c8_length_mismatch_rejected ⟨some "1;2;3"⟩ "TS" [1, 2, 3] (by decide) (by decide)

/-- Claim C10.  When the `sunrise` and `sunset` keys are absent from the
configuration, `config_data.get(..., 0)` substitutes the integer `0`, which
is not `None`, so the "manually set" suffix is chosen — whatever
`stable_date` or `days_offset` hold. -/
theorem c10_absent_sunrise_sunset_default_manual
    (config : List (String × PyVal)) (cage bird ct : String)
    (h1 : List.lookup "sunrise" config = Option.none)
    (h2 : List.lookup "sunset" config = Option.none) :
    flush_file_name config cage bird ct
      = some ("cage_" ++ cage ++ "_" ++ bird ++ "_" ++ ct ++ "_manually_set.csv") := by
  simp [flush_file_name, cfgGet, h1, h2]

/-- Configuration for the C10 witness: no sunrise/sunset keys, but both a
stable date and a day offset configured. -/
def cfgC10 : List (String × PyVal) :=
  [("stable_date", PyVal.str "2024_06_01"), ("days_offset", PyVal.int 7)]

/-- Witness for C10: with sunrise/sunset absent and both other modes
configured, the manually-set name is still chosen. -/
theorem c10_witness :
    flush_file_name cfgC10 "12" "bird" "T"
      = some ("cage_" ++ "12" ++ "_" ++ "bird" ++ "_" ++ "T" ++ "_manually_set.csv") :=
  c10_absent_sunrise_sunset_default_manual cfgC10 "12" "bird" "T" (by decide) (by decide)

/-- Configuration refuting claim C2: sunrise and sunset explicitly `None`,
no stable date configured, a day offset of 5 configured. -/
def cfgC2 : List (String × PyVal) :=
  [("sunrise", PyVal.none), ("sunset", PyVal.none), ("days_offset", PyVal.int 5)]

/-- Counterexample to claim C2.  The claim says that when the manual branch
does not apply, the stable-date suffix is used only "if a stable-date value
is configured", else the days-offset suffix.  Here no stable date is
configured and a day-offset integer is, yet the code emits the stable-date
suffix embedding the default `0`, because `config_data.get("stable_date", 0)`
is `0`, which `is not None`. -/
theorem c2_counterexample :
    flush_file_name cfgC2 "1" "b" "T" = some "cage_1_b_T_stable_date_0.csv"
    ∧ flush_file_name cfgC2 "1" "b" "T" ≠ some "cage_1_b_T_Days_offset_5.csv" := by
  refine ⟨by decide, by decide⟩

/-- Claim C2 as amended.  The three branch conditions test the values after
defaulting absent keys to the integer `0`: manual needs both `sunrise` and
`sunset` to be absent-or-non-`None`; else stable-date fires whenever
`stable_date` is absent-or-non-`None` (embedding the defaulted value, `0`
when absent); else days-offset fires whenever the defaulted `days_offset` is
an integer; else no name is assigned and the flush fails (`NameError`). -/
theorem c2_amended_mode_suffix_priority
    (config : List (String × PyVal)) (cage bird ct : String) :
    flush_file_name config cage bird ct =
      (if List.lookup "sunrise" config ≠ some PyVal.none
          ∧ List.lookup "sunset" config ≠ some PyVal.none then
        some ("cage_" ++ cage ++ "_" ++ bird ++ "_" ++ ct ++ "_manually_set.csv")
      else if List.lookup "stable_date" config ≠ some PyVal.none then
        some ("cage_" ++ cage ++ "_" ++ bird ++ "_" ++ ct ++ "_stable_date_" ++
          pyStr ((List.lookup "stable_date" config).getD (PyVal.int 0)) ++ ".csv")
      else if ((List.lookup "days_offset" config).getD (PyVal.int 0)).isInt = true then
        some ("cage_" ++ cage ++ "_" ++ bird ++ "_" ++ ct ++ "_Days_offset_" ++
          pyStr ((List.lookup "days_offset" config).getD (PyVal.int 0)) ++ ".csv")
      else Option.none) := by
  rcases h1 : List.lookup "sunrise" config with _ | v1 <;>
    rcases h2 : List.lookup "sunset" config with _ | v2 <;>
      rcases h3 : List.lookup "stable_date" config with _ | v3 <;>
        simp [flush_file_name, cfgGet, h1, h2, h3]

/-- When every read is rejected, the inner loop never reaches its
elapsed-time check: after `n` iterations (each read costing one second, as
with the serial timeout) it is still running, with `n` seconds elapsed and
an empty buffer. -/
theorem minuteRun_all_rejected (n : ℕ) :
    minuteRun (fun _ => Option.none) (fun _ => 1) n ⟨0, [], 0⟩ = .running ⟨n, [], n⟩ := by
  induction n with
  | zero => rfl
  | succ k ih => simp [minuteRun, ih, minuteStep]

/-- Counterexample to claim C4.  The claim says the inner loop exits once
~60 seconds have elapsed even when every read is rejected.  With every read
rejected (each costing one second), after 120 iterations 120 > 60 seconds
have elapsed and the loop is still running — and it never reaches `done` at
any iteration count, because `continue` skips the elapsed-time check. -/
theorem c4_counterexample :
    minuteRun (fun _ => Option.none) (fun _ => 1) 120 ⟨0, [], 0⟩ = .running ⟨120, [], 120⟩
    ∧ ∀ (n : ℕ) (b : List (List (String × Value))),
        minuteRun (fun _ => Option.none) (fun _ => 1) n ⟨0, [], 0⟩ ≠ .done b := by
  refine ⟨minuteRun_all_rejected 120, ?_⟩
  intro n b h
  rw [minuteRun_all_rejected n] at h
  exact MinuteOutcome.noConfusion h

/-- While the loop keeps running under always-valid reads, each iteration
advances the elapsed-seconds counter by at least one. -/
theorem minuteRun_progress (reads : ℕ → Option (List (String × Value))) (dur : ℕ → ℕ)
    (h : ∀ i, (reads i).isSome = true) :
    ∀ (k : ℕ) (s : MinuteState),
      (∃ b, minuteRun reads dur k s = .done b) ∨
        ∃ s1, minuteRun reads dur k s = .running s1 ∧ s.t + k ≤ s1.t := by
  intro k
  induction k with
  | zero => exact fun s => Or.inr ⟨s, rfl, by simp⟩
  | succ k ih =>
    intro s
    rcases ih s with ⟨b, hb⟩ | ⟨s1, hs1, ht⟩
    · exact Or.inl ⟨b, by rw [minuteRun, hb]⟩
    · rcases Option.isSome_iff_exists.mp (h s1.idx) with ⟨d, hd⟩
      by_cases h60 : 60 ≤ s1.t + dur s1.idx
      · exact Or.inl ⟨s1.buf ++ [d], by rw [minuteRun, hs1]; simp [minuteStep, hd, h60]⟩
      · refine Or.inr ⟨⟨s1.t + dur s1.idx + 1, s1.buf ++ [d], s1.idx + 1⟩, ?_, ?_⟩
        · rw [minuteRun, hs1]; simp [minuteStep, hd, h60]
        · simp only []; omega

/-- Claim C4 as amended.  The elapsed-time check runs only after a valid
sample is appended, so termination is guaranteed when the reads keep
yielding valid samples: under always-valid reads the loop reaches `done`
(within at most 62 iterations, since each one advances the clock by at
least the one-second sleep); under always-rejected reads it never exits. -/
theorem c4_amended_terminates_with_valid_reads
    (reads : ℕ → Option (List (String × Value))) (dur : ℕ → ℕ)
    (h : ∀ i, (reads i).isSome = true) :
    ∃ (n : ℕ) (b : List (List (String × Value))),
      minuteRun reads dur n ⟨0, [], 0⟩ = .done b := by
  rcases minuteRun_progress reads dur h 61 ⟨0, [], 0⟩ with ⟨b, hb⟩ | ⟨s1, hs1, ht⟩
  · exact ⟨61, b, hb⟩
  · rcases Option.isSome_iff_exists.mp (h s1.idx) with ⟨d, hd⟩
    have h60 : 60 ≤ s1.t + dur s1.idx := by
      simp only [] at ht; omega
    refine ⟨62, s1.buf ++ [d], ?_⟩
    rw [show (62 : ℕ) = 61 + 1 from rfl, minuteRun, hs1]
    simp [minuteStep, hd, h60]

/-- Sample record used by the C4 witness. -/
def c4Rec : List (String × Value) := [("lights_on_time", Value.num 2)]

/-- Witness for C4 (amended): with every read valid, the loop terminates. -/
theorem c4_witness :
    ∃ (n : ℕ) (b : List (List (String × Value))),
      minuteRun (fun _ => some c4Rec) (fun _ => 0) n ⟨0, [], 0⟩ = .done b :=
  c4_amended_terminates_with_valid_reads (fun _ => some c4Rec) (fun _ => 0) (fun _ => rfl)

/-- Claim C9.  The inner loop breaks only at the check that immediately
follows appending a valid sample, so whenever it exits, the buffer handed to
the aggregator is non-empty. -/
theorem c9_minute_buffer_nonempty_at_exit
    (reads : ℕ → Option (List (String × Value))) (dur : ℕ → ℕ)
    (n : ℕ) (s : MinuteState) (b : List (List (String × Value)))
    (h : minuteRun reads dur n s = .done b) : b ≠ [] := by
  induction n with
  | zero => exact MinuteOutcome.noConfusion h
  | succ k ih =>
    rw [minuteRun] at h
    cases hk : minuteRun reads dur k s with
    | done b2 =>
      rw [hk] at h
      cases h
      exact ih hk
    | running s1 =>
      rw [hk] at h
      simp only [minuteStep] at h
      split at h
      · exact MinuteOutcome.noConfusion h
      · split at h
        · cases h; simp
        · exact MinuteOutcome.noConfusion h

/-- Sample record used by the C9 witness. -/
def c9Rec : List (String × Value) := [("dateTime", Value.num 1)]

/-- Witness for C9: a run whose first read is valid and consumes the whole
minute exits at once, with the non-empty buffer `[c9Rec]`. -/
theorem c9_witness : ([c9Rec] : List (List (String × Value))) ≠ [] :=
  c9_minute_buffer_nonempty_at_exit (fun _ => some c9Rec) (fun _ => 60) 1 ⟨0, [], 0⟩
    [c9Rec] (by decide)

/-- The Python flush threshold `e / 60 >= 3` (true division over the
rationals, `e` the `.seconds` component) holds exactly when `e` reaches
180. -/
theorem flush_threshold_iff (e : ℕ) :
    ((FILE_WRITE_DELAY_MINS : ℕ) : ℚ) ≤ (e : ℚ) / 60 ↔ 180 ≤ e := by
  have h3 : ((FILE_WRITE_DELAY_MINS : ℕ) : ℚ) = 3 := by
    norm_num [FILE_WRITE_DELAY_MINS]
  rw [h3, le_div_iff₀ (by norm_num : (0 : ℚ) < 60)]
  constructor
  · intro hh
    exact_mod_cast (by linarith : (180 : ℚ) ≤ (e : ℚ))
  · intro hh
    have he : (180 : ℚ) ≤ (e : ℚ) := by exact_mod_cast hh
    linarith

/-- Aggregated record used by the C6 counterexample. -/
def c6Rec : List (String × Value) := [("dateTime", Value.time 86460)]

/-- Counterexample to claim C6.  The flush gate reads `timedelta.seconds`,
the seconds component of the elapsed time, which wraps at 86400: one day
and one minute after the batch start, 86460 seconds — far past the
3-minute threshold — have elapsed, yet `.seconds` is 60, `60 / 60 = 1.0`
is below 3, and the cycle does not flush (the record is only accumulated
and the start timestamp is kept), refuting "triggered exactly when elapsed
wall-clock time since the batch-start timestamp reaches the threshold". -/
theorem c6_counterexample :
    180 ≤ 86460 - (0 : ℕ)
    ∧ (flushStep ⟨[], 0⟩ 86460 c6Rec).2 = Option.none
    ∧ (flushStep ⟨[], 0⟩ 86460 c6Rec).1 = ⟨[c6Rec], 0⟩ := by
  have heq : flushStep ⟨[], 0⟩ 86460 c6Rec = (⟨[c6Rec], 0⟩, Option.none) := by
    simp only [flushStep]
    rw [if_neg]
    · rfl
    · intro hq
      have h180 := (flush_threshold_iff ((86460 - 0) % 86400)).mp hq
      omega
  exact ⟨by norm_num, by rw [heq], by rw [heq]⟩

/-- Claim C6 as amended.  The flush gate tests the seconds COMPONENT of the
elapsed timedelta: a flush fires exactly when
`(now - hour_loop_start_time) % 86400` reaches 180 seconds — the condition
still never inspects the batch length — and a flush writes the accumulated
batch (including the just-appended record), resets it to empty, and resets
the batch-start timestamp to the current time; otherwise the record is only
accumulated. -/
theorem c6_flush_seconds_component_gated (s : HourState) (now : ℕ)
    (rec : List (String × Value)) :
    ((flushStep s now rec).2.isSome = true
        ↔ 180 ≤ (now - s.hour_loop_start_time) % 86400)
    ∧ flushStep s now rec =
        (if 180 ≤ (now - s.hour_loop_start_time) % 86400 then
          (⟨[], now⟩, some (s.data_from_last_hour ++ [rec]))
        else
          (⟨s.data_from_last_hour ++ [rec], s.hour_loop_start_time⟩, Option.none)) := by
  have hiff := flush_threshold_iff ((now - s.hour_loop_start_time) % 86400)
  have heq : flushStep s now rec =
      (if 180 ≤ (now - s.hour_loop_start_time) % 86400 then
        (⟨[], now⟩, some (s.data_from_last_hour ++ [rec]))
      else
        (⟨s.data_from_last_hour ++ [rec], s.hour_loop_start_time⟩, Option.none)) := by
    simp only [flushStep]
    by_cases hc : 180 ≤ (now - s.hour_loop_start_time) % 86400
    · rw [if_pos (hiff.mpr hc), if_pos hc]
    · rw [if_neg (fun hq => hc (hiff.mp hq)), if_neg hc]
  refine ⟨?_, heq⟩
  rw [heq]
  by_cases hc : 180 ≤ (now - s.hour_loop_start_time) % 86400 <;> simp [hc]

/-- A column absent from every record raises `KeyError` inside the
aggregation loop. -/
theorem seriesNums_none_of_absent (records : List (List (String × Value))) (f : String)
    (h : ∀ r ∈ records, List.lookup f r = Option.none) :
    seriesNums records f = Option.none := by
  unfold seriesNums
  rw [if_pos]
  exact List.all_eq_true.mpr (fun r hr => by rw [h r hr]; rfl)

/-- On a column whose cell is numeric in every record, extracting the series
succeeds and yields exactly the column's numeric cells. -/
theorem seriesVals_filterMap_num (records : List (List (String × Value))) (f : String)
    (h : ∀ r ∈ records, isNumCell (List.lookup f r) = true) :
    seriesVals (records.filterMap (fun r => List.lookup f r))
      = some (numVals records f) := by
  induction records with
  | nil => rfl
  | cons r rs ih =>
    have hr := h r (by simp)
    have hrs := ih (fun r' hr' => h r' (by simp [hr']))
    cases hl : List.lookup f r with
    | none => rw [hl] at hr; simp [isNumCell] at hr
    | some v =>
      cases v with
      | num q =>
        have hfc : List.filterMap (fun r => List.lookup f r) (r :: rs)
            = Value.num q :: List.filterMap (fun r => List.lookup f r) rs := by
          simp [List.filterMap_cons, hl]
        have hnv : numVals (r :: rs) f = q :: numVals rs f := by
          simp [numVals, List.filterMap_cons, hl]
        rw [hfc, hnv]
        simp [seriesVals, valueNum, hrs]
      | str s2 => rw [hl] at hr; simp [isNumCell] at hr
      | time t2 => rw [hl] at hr; simp [isNumCell] at hr

/-- Lemma: `seriesNums` on a non-empty all-numeric column returns the column. -/
theorem seriesNums_of_num (records : List (List (String × Value))) (f : String)
    (hne : records ≠ [])
    (h : ∀ r ∈ records, isNumCell (List.lookup f r) = true) :
    seriesNums records f = some (numVals records f) := by
  unfold seriesNums
  rw [if_neg, seriesVals_filterMap_num records f h]
  intro hall
  rcases records with _ | ⟨r, rs⟩
  · exact hne rfl
  · have hr := h r (by simp)
    rw [List.all_eq_true] at hall
    have hr0 := hall r (by simp)
    cases hl : List.lookup f r with
    | none => rw [hl] at hr; simp [isNumCell] at hr
    | some v => rw [hl] at hr0; simp at hr0

/-- A non-empty all-numeric column has at least one numeric cell. -/
theorem numVals_ne_nil (records : List (List (String × Value))) (f : String)
    (hne : records ≠ [])
    (h : ∀ r ∈ records, isNumCell (List.lookup f r) = true) :
    numVals records f ≠ [] := by
  rcases records with _ | ⟨r, rs⟩
  · exact absurd rfl hne
  · have hr := h r (by simp)
    cases hl : List.lookup f r with
    | none => rw [hl] at hr; simp [isNumCell] at hr
    | some v =>
      cases v with
      | num q => simp [numVals, List.filterMap_cons, hl]
      | str s2 => rw [hl] at hr; simp [isNumCell] at hr
      | time t2 => rw [hl] at hr; simp [isNumCell] at hr

/-- Folding `min` over a list never exceeds the initial accumulator. -/
theorem foldl_min_le_init (xs : List ℚ) : ∀ a : ℚ, xs.foldl min a ≤ a := by
  induction xs with
  | nil => intro a; simp
  | cons x xs ih =>
    intro a
    exact le_trans (ih (min a x)) (min_le_left a x)

/-- Folding `min` over a list bounds every member from below. -/
theorem foldl_min_le_mem (xs : List ℚ) : ∀ (a v : ℚ), v ∈ xs → xs.foldl min a ≤ v := by
  induction xs with
  | nil => intro a v hv; cases hv
  | cons x xs ih =>
    intro a v hv
    rcases List.mem_cons.mp hv with rfl | hv'
    · exact le_trans (foldl_min_le_init xs (min a v)) (min_le_right a v)
    · exact ih (min a x) v hv'

/-- The fold of `min` is the accumulator or one of the list's members. -/
theorem foldl_min_mem (xs : List ℚ) : ∀ a : ℚ, xs.foldl min a = a ∨ xs.foldl min a ∈ xs := by
  induction xs with
  | nil => intro a; left; rfl
  | cons x xs ih =>
    intro a
    rcases ih (min a x) with h | h
    · rcases min_choice a x with hm | hm
      · left; rw [List.foldl_cons, h, hm]
      · right; rw [List.foldl_cons, h, hm]; simp
    · right; exact List.mem_cons_of_mem x h

/-- The value `df[field].min()` of a non-empty column is one of its values. -/
theorem qmin_mem (l : List ℚ) (h : l ≠ []) : qmin l ∈ l := by
  rcases l with _ | ⟨x, xs⟩
  · exact absurd rfl h
  · rcases foldl_min_mem xs x with h1 | h1
    · rw [qmin, h1]; simp
    · rw [qmin]; exact List.mem_cons_of_mem x h1

/-- The value `df[field].min()` bounds every value of the column from below. -/
theorem qmin_le (l : List ℚ) (v : ℚ) (hv : v ∈ l) : qmin l ≤ v := by
  rcases l with _ | ⟨x, xs⟩
  · cases hv
  · rcases List.mem_cons.mp hv with rfl | hv'
    · exact foldl_min_le_init xs v
    · exact foldl_min_le_mem xs x v hv'

/-- Folding `max` over a list is at least the initial accumulator. -/
theorem foldl_max_ge_init (xs : List ℚ) : ∀ a : ℚ, a ≤ xs.foldl max a := by
  induction xs with
  | nil => intro a; simp
  | cons x xs ih =>
    intro a
    exact le_trans (le_max_left a x) (ih (max a x))

/-- Folding `max` over a list bounds every member from above. -/
theorem foldl_max_ge_mem (xs : List ℚ) : ∀ (a v : ℚ), v ∈ xs → v ≤ xs.foldl max a := by
  induction xs with
  | nil => intro a v hv; cases hv
  | cons x xs ih =>
    intro a v hv
    rcases List.mem_cons.mp hv with rfl | hv'
    · exact le_trans (le_max_right a v) (foldl_max_ge_init xs (max a v))
    · exact ih (max a x) v hv'

/-- The fold of `max` is the accumulator or one of the list's members. -/
theorem foldl_max_mem (xs : List ℚ) : ∀ a : ℚ, xs.foldl max a = a ∨ xs.foldl max a ∈ xs := by
  induction xs with
  | nil => intro a; left; rfl
  | cons x xs ih =>
    intro a
    rcases ih (max a x) with h | h
    · rcases max_choice a x with hm | hm
      · left; rw [List.foldl_cons, h, hm]
      · right; rw [List.foldl_cons, h, hm]; simp
    · right; exact List.mem_cons_of_mem x h

/-- The value `df[field].max()` of a non-empty column is one of its values. -/
theorem qmax_mem (l : List ℚ) (h : l ≠ []) : qmax l ∈ l := by
  rcases l with _ | ⟨x, xs⟩
  · exact absurd rfl h
  · rcases foldl_max_mem xs x with h1 | h1
    · rw [qmax, h1]; simp
    · rw [qmax]; exact List.mem_cons_of_mem x h1

/-- The value `df[field].max()` bounds every value of the column from above. -/
theorem qmax_ge (l : List ℚ) (v : ℚ) (hv : v ∈ l) : v ≤ qmax l := by
  rcases l with _ | ⟨x, xs⟩
  · cases hv
  · rcases List.mem_cons.mp hv with rfl | hv'
    · exact foldl_max_ge_init xs v
    · exact foldl_max_ge_mem xs x v hv'

/-- The aggregated record always ends with the fresh aggregation-time
timestamp under `dateTime`, whatever the per-field aggregation did. -/
theorem lookup_dateTime_data_aggregation (records : List (List (String × Value))) (now : ℕ) :
    List.lookup "dateTime" (data_aggregation records now) = some (Value.time now) := by
  unfold data_aggregation
  cases h1 : seriesNums records "lights_on_time" <;>
    cases h2 : seriesNums records "lights_off_time" <;>
      simp [aggEntries, CSV_FIELD_NAMES, mkAgg, h1, h2, List.lookup]

/-- Claim C5.  For a non-empty buffer whose records all carry numeric values
for every non-timestamp schema field, the aggregated record binds
`x_min`/`x_max`/`x_median` to the text renderings of the column's
minimum, maximum and median (the min/max are characterised as members of
the column bounding it), and carries the fresh aggregation-time timestamp,
a value distinct from every value stored in any sample. -/
theorem c5_aggregated_min_max_median (records : List (List (String × Value))) (now : ℕ)
    (hne : records ≠ [])
    (hnum : ∀ r ∈ records, ∀ f ∈ CSV_FIELD_NAMES, f ≠ "dateTime" →
      isNumCell (List.lookup f r) = true)
    (hsv : ∀ r ∈ records, ∀ kv ∈ r, isTimeVal kv.2 = false) :
    (∀ f ∈ CSV_FIELD_NAMES, f ≠ "dateTime" →
      List.lookup (f ++ "_min") (data_aggregation records now)
          = some (Value.str (fmtQ (qmin (numVals records f))))
      ∧ List.lookup (f ++ "_max") (data_aggregation records now)
          = some (Value.str (fmtQ (qmax (numVals records f))))
      ∧ List.lookup (f ++ "_median") (data_aggregation records now)
          = some (Value.str (fmtQ (qmedian (numVals records f))))
      ∧ qmin (numVals records f) ∈ numVals records f
      ∧ (∀ v ∈ numVals records f, qmin (numVals records f) ≤ v)
      ∧ qmax (numVals records f) ∈ numVals records f
      ∧ (∀ v ∈ numVals records f, v ≤ qmax (numVals records f)))
    ∧ List.lookup "dateTime" (data_aggregation records now) = some (Value.time now)
    ∧ (∀ r ∈ records, ∀ kv ∈ r, kv.2 ≠ Value.time now) := by
  have hnumOn : ∀ r ∈ records, isNumCell (List.lookup "lights_on_time" r) = true :=
    fun r hr => hnum r hr "lights_on_time" (by decide) (by decide)
  have hnumOff : ∀ r ∈ records, isNumCell (List.lookup "lights_off_time" r) = true :=
    fun r hr => hnum r hr "lights_off_time" (by decide) (by decide)
  have hon : seriesNums records "lights_on_time" = some (numVals records "lights_on_time") :=
    seriesNums_of_num records _ hne hnumOn
  have hoff : seriesNums records "lights_off_time" = some (numVals records "lights_off_time") :=
    seriesNums_of_num records _ hne hnumOff
  refine ⟨?_, lookup_dateTime_data_aggregation records now, ?_⟩
  · intro f hf hfne
    have hmem : f = "dateTime" ∨ f = "lights_on_time" ∨ f = "lights_off_time" := by
      simpa [CSV_FIELD_NAMES] using hf
    rcases hmem with rfl | rfl | rfl
    · exact absurd rfl hfne
    · refine ⟨?_, ?_, ?_,
        qmin_mem _ (numVals_ne_nil records _ hne hnumOn),
        fun v hv => qmin_le _ v hv,
        qmax_mem _ (numVals_ne_nil records _ hne hnumOn),
        fun v hv => qmax_ge _ v hv⟩ <;>
        simp [data_aggregation, aggEntries, CSV_FIELD_NAMES, hon, hoff, mkAgg, List.lookup]
    · refine ⟨?_, ?_, ?_,
        qmin_mem _ (numVals_ne_nil records _ hne hnumOff),
        fun v hv => qmin_le _ v hv,
        qmax_mem _ (numVals_ne_nil records _ hne hnumOff),
        fun v hv => qmax_ge _ v hv⟩ <;>
        simp [data_aggregation, aggEntries, CSV_FIELD_NAMES, hon, hoff, mkAgg, List.lookup]
  · intro r hr kv hkv hEq
    have h1 := hsv r hr kv hkv
    rw [hEq] at h1
    simp [isTimeVal] at h1

/-- Buffer used by the C5 witness: two well-formed samples. -/
def c5Records : List (List (String × Value)) :=
  [[("dateTime", Value.str "T1"), ("lights_on_time", Value.num 10),
    ("lights_off_time", Value.num 40)],
   [("dateTime", Value.str "T2"), ("lights_on_time", Value.num 30),
    ("lights_off_time", Value.num 20)]]

/-- Witness for C5 at a concrete two-sample buffer and aggregation tick 7. -/
theorem c5_witness :
    (∀ f ∈ CSV_FIELD_NAMES, f ≠ "dateTime" →
      List.lookup (f ++ "_min") (data_aggregation c5Records 7)
          = some (Value.str (fmtQ (qmin (numVals c5Records f))))
      ∧ List.lookup (f ++ "_max") (data_aggregation c5Records 7)
          = some (Value.str (fmtQ (qmax (numVals c5Records f))))
      ∧ List.lookup (f ++ "_median") (data_aggregation c5Records 7)
          = some (Value.str (fmtQ (qmedian (numVals c5Records f))))
      ∧ qmin (numVals c5Records f) ∈ numVals c5Records f
      ∧ (∀ v ∈ numVals c5Records f, qmin (numVals c5Records f) ≤ v)
      ∧ qmax (numVals c5Records f) ∈ numVals c5Records f
      ∧ (∀ v ∈ numVals c5Records f, v ≤ qmax (numVals c5Records f)))
    ∧ List.lookup "dateTime" (data_aggregation c5Records 7) = some (Value.time 7)
    ∧ (∀ r ∈ c5Records, ∀ kv ∈ r, kv.2 ≠ Value.time 7) :=
  c5_aggregated_min_max_median c5Records 7 (by decide) (by decide) (by decide)

/-- Claim C7.  When some non-timestamp field is absent from every record,
the aggregation loop raises, the handler logs the full input batch (and the
error) and the aggregator still returns a record: it keeps whatever
per-field aggregates had already been assigned (here: the first field's
three aggregates, whenever that column was extracted successfully) plus the
fresh timestamp — nothing propagates to the caller. -/
theorem c7_aggregation_failure_best_effort (records : List (List (String × Value))) (now : ℕ)
    (hfail : ∃ f ∈ CSV_FIELD_NAMES, f ≠ "dateTime"
      ∧ ∀ r ∈ records, List.lookup f r = Option.none) :
    data_aggregation_log records = some records
    ∧ List.lookup "dateTime" (data_aggregation records now) = some (Value.time now)
    ∧ (∀ v, seriesNums records "lights_on_time" = some v →
        List.lookup "lights_on_time_min" (data_aggregation records now)
            = some (Value.str (fmtQ (qmin v)))
        ∧ List.lookup "lights_on_time_max" (data_aggregation records now)
            = some (Value.str (fmtQ (qmax v)))
        ∧ List.lookup "lights_on_time_median" (data_aggregation records now)
            = some (Value.str (fmtQ (qmedian v)))) := by
  obtain ⟨f, hfmem, hfne, habs⟩ := hfail
  have hmem : f = "dateTime" ∨ f = "lights_on_time" ∨ f = "lights_off_time" := by
    simpa [CSV_FIELD_NAMES] using hfmem
  have hnone := seriesNums_none_of_absent records f habs
  refine ⟨?_, lookup_dateTime_data_aggregation records now, ?_⟩
  · rcases hmem with rfl | rfl | rfl
    · exact absurd rfl hfne
    · simp [data_aggregation_log, aggFailed, CSV_FIELD_NAMES, hnone]
    · cases hon : seriesNums records "lights_on_time" <;>
        simp [data_aggregation_log, aggFailed, CSV_FIELD_NAMES, hnone, hon]
  · intro v hv
    rcases hmem with rfl | rfl | rfl
    · exact absurd rfl hfne
    · rw [hnone] at hv; exact Option.noConfusion hv
    · simp [data_aggregation, aggEntries, CSV_FIELD_NAMES, hv, hnone, mkAgg, List.lookup]

/-- Batch used by the C7 witness: one record lacking `lights_off_time`. -/
def c7Records : List (List (String × Value)) :=
  [[("dateTime", Value.num 1), ("lights_on_time", Value.num 5)]]

/-- Witness for C7 at a concrete batch whose `lights_off_time` column is
absent from every record. -/
theorem c7_witness :
    data_aggregation_log c7Records = some c7Records
    ∧ List.lookup "dateTime" (data_aggregation c7Records 9) = some (Value.time 9)
    ∧ (∀ v, seriesNums c7Records "lights_on_time" = some v →
        List.lookup "lights_on_time_min" (data_aggregation c7Records 9)
            = some (Value.str (fmtQ (qmin v)))
        ∧ List.lookup "lights_on_time_max" (data_aggregation c7Records 9)
            = some (Value.str (fmtQ (qmax v)))
        ∧ List.lookup "lights_on_time_median" (data_aggregation c7Records 9)
            = some (Value.str (fmtQ (qmedian v)))) :=
  c7_aggregation_failure_best_effort c7Records 9 (by decide)
